import Mathlib

/-!
Verification of the Stryktipset system-generation core: a shallow embedding of
the probability, Kelly-criterion, coverage-allocation, combinatorial-expansion
and simulation routines, with theorems settling the specified properties.

Numbers are modelled by exact rationals (ℚ).  The ambient random source
(Math.random) and the transcendental strategic scoring (entropy via log2) are
modelled as explicit oracle parameters: a random draw becomes an input in
[0, 1], and the sorted-then-perturbed strategic ordering of matches becomes an
input list of indices.
-/

/-- A triple of outcome probabilities, as in the probabilities records of
odds.ts (fields home / draw / away). -/
structure Prob3 where
  home : ℚ
  draw : ℚ
  away : ℚ
  deriving DecidableEq, Repr

/-- A triple of decimal bookmaker odds (fields home / draw / away). -/
structure Odds3 where
  home : ℚ
  draw : ℚ
  away : ℚ
  deriving DecidableEq, Repr

/-- odds.ts, oddsToNormalizedProbabilities: implied[i] = 1/odds[i], then each
implied probability is divided by the total to remove the bookmaker vig. -/
def oddsToNormalizedProbabilities (odds : Odds3) : Prob3 :=
  let impliedHome := 1 / odds.home
  let impliedDraw := 1 / odds.draw
  let impliedAway := 1 / odds.away
  let total := impliedHome + impliedDraw + impliedAway
  { home := impliedHome / total
    draw := impliedDraw / total
    away := impliedAway / total }

/-- odds.ts, adjustProbabilityForRisk: bias = 1 + riskFactor * (0.5 - prob),
result clamped into [0, 1]. -/
def adjustProbabilityForRisk (prob riskFactor : ℚ) : ℚ :=
  let bias := 1 + riskFactor * (1/2 - prob)
  max 0 (min 1 (prob * bias))

/-- odds.ts, getRiskFactor: switch over the profile string with a default
branch returning 0.  Risk profiles are modelled as the runtime strings of the
TypeScript union type. -/
def getRiskFactor (profile : String) : ℚ :=
  if profile = "safe" then -(7/10)
  else if profile = "balanced" then 0
  else if profile = "risky" then 7/10
  else 0

/-- odds.ts, adjustMatchProbabilities: per-outcome risk adjustment followed by
renormalization to sum 1. -/
def adjustMatchProbabilities (probabilities : Prob3) (riskProfile : String) : Prob3 :=
  let riskFactor := getRiskFactor riskProfile
  let adjusted : Prob3 :=
    { home := adjustProbabilityForRisk probabilities.home riskFactor
      draw := adjustProbabilityForRisk probabilities.draw riskFactor
      away := adjustProbabilityForRisk probabilities.away riskFactor }
  let total := adjusted.home + adjusted.draw + adjusted.away
  { home := adjusted.home / total
    draw := adjusted.draw / total
    away := adjusted.away / total }

namespace KellyCriterion

/-- kellycriterion.ts, KellyCriterion.calculateOptimalStake: edge
= p * odds - 1; zero stake for a non-positive edge, otherwise the Kelly
fraction edge / (odds - 1) of the bankroll, capped at 25% of the bankroll. -/
def calculateOptimalStake (trueProbability bookmakerOdds bankroll : ℚ) : ℚ :=
  let edge := trueProbability * bookmakerOdds - 1
  if edge ≤ 0 then 0
  else
    let kellyFraction := edge / (bookmakerOdds - 1)
    min (kellyFraction * bankroll) (1/4 * bankroll)

/-- kellycriterion.ts, KellyCriterion.calculateValue: the expected value
p * odds - 1 of a bet. -/
def calculateValue (trueProbability bookmakerOdds : ℚ) : ℚ :=
  trueProbability * bookmakerOdds - 1

end KellyCriterion

/-- C2: for every odds triple with each component strictly greater than 1,
oddsToNormalizedProbabilities returns (1/odds[i]) / Σ (1/odds[j]) per
component, and the three returned probabilities sum to 1 within 1e-9. -/
theorem oddsToNormalizedProbabilities_spec (odds : Odds3)
    (hh : 1 < odds.home) (hd : 1 < odds.draw) (ha : 1 < odds.away) :
    (oddsToNormalizedProbabilities odds).home
        = (1 / odds.home) / (1 / odds.home + 1 / odds.draw + 1 / odds.away) ∧
    (oddsToNormalizedProbabilities odds).draw
        = (1 / odds.draw) / (1 / odds.home + 1 / odds.draw + 1 / odds.away) ∧
    (oddsToNormalizedProbabilities odds).away
        = (1 / odds.away) / (1 / odds.home + 1 / odds.draw + 1 / odds.away) ∧
    |(oddsToNormalizedProbabilities odds).home + (oddsToNormalizedProbabilities odds).draw
        + (oddsToNormalizedProbabilities odds).away - 1| ≤ 1 / 1000000000 := by
  have h0h : (0:ℚ) < 1 / odds.home := by positivity
  have h0d : (0:ℚ) < 1 / odds.draw := by positivity
  have h0a : (0:ℚ) < 1 / odds.away := by positivity
  have htot : (0:ℚ) < 1 / odds.home + 1 / odds.draw + 1 / odds.away := by linarith
  refine ⟨rfl, rfl, rfl, ?_⟩
  have hsum : (oddsToNormalizedProbabilities odds).home
      + (oddsToNormalizedProbabilities odds).draw
      + (oddsToNormalizedProbabilities odds).away = 1 := by
    show (1 / odds.home) / (1 / odds.home + 1 / odds.draw + 1 / odds.away)
        + (1 / odds.draw) / (1 / odds.home + 1 / odds.draw + 1 / odds.away)
        + (1 / odds.away) / (1 / odds.home + 1 / odds.draw + 1 / odds.away) = 1
    rw [div_add_div_same, div_add_div_same, div_self (ne_of_gt htot)]
  rw [hsum]
  norm_num

/-- Witness for C2 at the odds triple {home 2, draw 3, away 4}: the normalized
probabilities are 6/13, 4/13, 3/13, approximately 0.4615 / 0.3077 / 0.2308,
and they sum to 1 within 1e-9. -/
theorem oddsToNormalizedProbabilities_spec_witness :
    (1:ℚ) < 2 ∧ (1:ℚ) < 3 ∧ (1:ℚ) < 4 ∧
    oddsToNormalizedProbabilities ⟨2, 3, 4⟩ = ⟨6/13, 4/13, 3/13⟩ ∧
    |(6:ℚ)/13 - 4615/10000| ≤ 1/10000 ∧
    |(4:ℚ)/13 - 3077/10000| ≤ 1/10000 ∧
    |(3:ℚ)/13 - 2308/10000| ≤ 1/10000 ∧
    |(oddsToNormalizedProbabilities ⟨2, 3, 4⟩).home
        + (oddsToNormalizedProbabilities ⟨2, 3, 4⟩).draw
        + (oddsToNormalizedProbabilities ⟨2, 3, 4⟩).away - 1| ≤ 1 / 1000000000 :=
  ⟨by norm_num, by norm_num, by norm_num,
   by norm_num [oddsToNormalizedProbabilities],
   by rw [abs_le]; constructor <;> norm_num,
   by rw [abs_le]; constructor <;> norm_num,
   by rw [abs_le]; constructor <;> norm_num,
   (oddsToNormalizedProbabilities_spec ⟨2, 3, 4⟩
      (by norm_num) (by norm_num) (by norm_num)).2.2.2⟩

/-- C3: for every probability p in [0,1], odds above 1 and non-negative
bankroll, calculateOptimalStake returns 0 when the edge p*odds - 1 is
non-positive, returns min(edge/(odds-1) * bankroll, 0.25 * bankroll) when the
edge is positive, and never exceeds 25% of the bankroll. -/
theorem calculateOptimalStake_spec (p odds bankroll : ℚ)
    (hp0 : 0 ≤ p) (hp1 : p ≤ 1) (ho : 1 < odds) (hb : 0 ≤ bankroll) :
    (p * odds - 1 ≤ 0 → KellyCriterion.calculateOptimalStake p odds bankroll = 0) ∧
    (0 < p * odds - 1 → KellyCriterion.calculateOptimalStake p odds bankroll
        = min ((p * odds - 1) / (odds - 1) * bankroll) (1/4 * bankroll)) ∧
    KellyCriterion.calculateOptimalStake p odds bankroll ≤ 1/4 * bankroll := by
  unfold KellyCriterion.calculateOptimalStake
  by_cases h : p * odds - 1 ≤ 0
  · rw [if_pos h]
    exact ⟨fun _ => rfl, fun hpos => absurd h (not_le.mpr hpos), by positivity⟩
  · rw [if_neg h]
    exact ⟨fun hle => absurd hle h, fun _ => rfl, min_le_right _ _⟩

/-- Witness for C3 at p = 1/2, odds = 3, bankroll = 1000: the edge is
positive, the stake equals min(250, 250) = 250 and is within the 25% cap. -/
theorem calculateOptimalStake_spec_witness :
    (0:ℚ) ≤ 1/2 ∧ (1/2:ℚ) ≤ 1 ∧ (1:ℚ) < 3 ∧ (0:ℚ) ≤ 1000 ∧
    KellyCriterion.calculateOptimalStake (1/2) 3 1000 ≤ 1/4 * 1000 ∧
    KellyCriterion.calculateOptimalStake (1/2) 3 1000 = 250 :=
  ⟨by norm_num, by norm_num, by norm_num, by norm_num,
   (calculateOptimalStake_spec (1/2) 3 1000
      (by norm_num) (by norm_num) (by norm_num) (by norm_num)).2.2,
   by norm_num [KellyCriterion.calculateOptimalStake]⟩

/-- C7: for every probability triple with components in [0,1] and positive
sum, adjustMatchProbabilities with the balanced risk profile returns the input
renormalized to sum 1; when the input already sums to 1 it is the identity. -/
theorem adjustMatchProbabilities_balanced_spec (p : Prob3)
    (hh0 : 0 ≤ p.home) (hh1 : p.home ≤ 1) (hd0 : 0 ≤ p.draw) (hd1 : p.draw ≤ 1)
    (ha0 : 0 ≤ p.away) (ha1 : p.away ≤ 1) (hsum : 0 < p.home + p.draw + p.away) :
    adjustMatchProbabilities p "balanced"
        = ⟨p.home / (p.home + p.draw + p.away),
           p.draw / (p.home + p.draw + p.away),
           p.away / (p.home + p.draw + p.away)⟩ ∧
    (p.home + p.draw + p.away = 1 → adjustMatchProbabilities p "balanced" = p) := by
  have hfactor : getRiskFactor "balanced" = 0 := by decide
  have hadj : ∀ q : ℚ, 0 ≤ q → q ≤ 1 → adjustProbabilityForRisk q 0 = q := by
    intro q h0 h1
    unfold adjustProbabilityForRisk
    simp only [zero_mul, add_zero, mul_one]
    rw [min_eq_right h1, max_eq_right h0]
  have hmain : adjustMatchProbabilities p "balanced"
      = ⟨p.home / (p.home + p.draw + p.away),
         p.draw / (p.home + p.draw + p.away),
         p.away / (p.home + p.draw + p.away)⟩ := by
    unfold adjustMatchProbabilities
    rw [hfactor]
    simp only [hadj p.home hh0 hh1, hadj p.draw hd0 hd1, hadj p.away ha0 ha1]
  refine ⟨hmain, fun h1 => ?_⟩
  rw [hmain, h1]
  cases p
  simp

/-- Witness for C7 at the triple {0.5, 0.3, 0.2}, which sums to 1: the
balanced adjustment is the identity. -/
theorem adjustMatchProbabilities_balanced_spec_witness :
    (0:ℚ) ≤ 1/2 ∧ (1/2:ℚ) ≤ 1 ∧ (0:ℚ) ≤ 3/10 ∧ (3/10:ℚ) ≤ 1 ∧
    (0:ℚ) ≤ 1/5 ∧ (1/5:ℚ) ≤ 1 ∧ (0:ℚ) < 1/2 + 3/10 + 1/5 ∧
    adjustMatchProbabilities ⟨1/2, 3/10, 1/5⟩ "balanced" = ⟨1/2, 3/10, 1/5⟩ :=
  ⟨by norm_num, by norm_num, by norm_num, by norm_num, by norm_num, by norm_num,
   by norm_num,
   (adjustMatchProbabilities_balanced_spec ⟨1/2, 3/10, 1/5⟩
      (by norm_num) (by norm_num) (by norm_num) (by norm_num)
      (by norm_num) (by norm_num) (by norm_num)).2 (by norm_num)⟩

/-- C10: every profile string other than "safe" and "risky" — including any
unknown or malformed one — is mapped by getRiskFactor to 0, the balanced
factor, with no error. -/
theorem getRiskFactor_default_spec (profile : String)
    (h1 : profile ≠ "safe") (h2 : profile ≠ "risky") :
    getRiskFactor profile = 0 := by
  unfold getRiskFactor
  rw [if_neg h1]
  by_cases hb : profile = "balanced"
  · rw [if_pos hb]
  · rw [if_neg hb, if_neg h2]

/-- Witness for C10 at the malformed profile string "aggressive": the result
is 0, the same factor as the balanced profile. -/
theorem getRiskFactor_default_spec_witness :
    "aggressive" ≠ "safe" ∧ "aggressive" ≠ "risky" ∧
    getRiskFactor "aggressive" = 0 ∧ getRiskFactor "balanced" = 0 :=
  ⟨by decide, by decide,
   getRiskFactor_default_spec "aggressive" (by decide) (by decide),
   by decide⟩

/-- The per-match outcome type: home win (1), draw (X), away win (2). -/
inductive Outcome where
  | one
  | X
  | two
  deriving DecidableEq, Repr

/-- types/system.ts, SystemOutcome: the coverage choice made for one match —
a single outcome, a half (two outcomes) or a full (all three). -/
inductive SystemOutcome where
  | s1
  | sX
  | s2
  | s1X
  | s12
  | sX2
  | s1X2
  deriving DecidableEq, Repr

/-- systemGenerator.ts, expandSystemOutcome: the list of individual outcomes a
system outcome stands for.  (The TypeScript default branch returning a
one-outcome list is unreachable for well-typed inputs and so has no case
here.) -/
def expandSystemOutcome : SystemOutcome → List Outcome
  | .s1 => [.one]
  | .sX => [.X]
  | .s2 => [.two]
  | .s1X => [.one, .X]
  | .s12 => [.one, .two]
  | .sX2 => [.X, .two]
  | .s1X2 => [.one, .X, .two]

/-- types/index.ts, MatchWithOdds (trimmed to the fields the core
computations read): identifier, odds and probabilities. -/
structure MatchWithOdds where
  matchId : String
  odds : Odds3
  probabilities : Prob3
  deriving DecidableEq, Repr

/-- types/system.ts, SystemMatch: a match together with the system outcome
selected for it. -/
structure SystemMatch where
  matchId : String
  odds : Odds3
  probabilities : Prob3
  systemOutcome : SystemOutcome
  deriving DecidableEq, Repr

/-- systemGenerator.ts, generateOutcomeCombinations: starting from one empty
partial row, every partial row branches into one extension per outcome allowed
by the next match's system outcome, in match order. -/
def generateOutcomeCombinations (systemMatches : List SystemMatch) : List (List Outcome) :=
  systemMatches.foldl
    (fun combinations m =>
      combinations.flatMap (fun combination =>
        (expandSystemOutcome m.systemOutcome).map (fun outcome => combination ++ [outcome])))
    [[]]

/-- Each expansion list is duplicate-free. -/
theorem expandSystemOutcome_nodup (s : SystemOutcome) : (expandSystemOutcome s).Nodup := by
  cases s <;> decide

/-- Each expansion list is nonempty. -/
theorem expandSystemOutcome_length_pos (s : SystemOutcome) :
    0 < (expandSystemOutcome s).length := by
  cases s <;> decide

/-- One expansion step multiplies the number of partial rows by the number of
allowed outcomes. -/
theorem expansion_step_length (combinations : List (List Outcome)) (outs : List Outcome) :
    (combinations.flatMap (fun combination =>
        outs.map (fun outcome => combination ++ [outcome]))).length
      = combinations.length * outs.length := by
  induction combinations with
  | nil => simp
  | cons c t ih =>
      simp only [List.flatMap_cons, List.length_append, List.length_map, ih, List.length_cons]
      ring

/-- The expander's row count is the product of the per-match expansion
lengths, for any starting set of partial rows. -/
theorem foldl_expansion_length (systemMatches : List SystemMatch) :
    ∀ acc : List (List Outcome),
      (systemMatches.foldl
        (fun combinations m =>
          combinations.flatMap (fun combination =>
            (expandSystemOutcome m.systemOutcome).map (fun outcome => combination ++ [outcome])))
        acc).length
      = acc.length * (systemMatches.map
          (fun m => (expandSystemOutcome m.systemOutcome).length)).prod := by
  induction systemMatches with
  | nil => intro acc; simp
  | cons m t ih =>
      intro acc
      simp only [List.foldl_cons, ih, expansion_step_length, List.map_cons, List.prod_cons]
      ring

/-- Row count of the full expansion, as a product over matches. -/
theorem generateOutcomeCombinations_length (systemMatches : List SystemMatch) :
    (generateOutcomeCombinations systemMatches).length
      = (systemMatches.map (fun m => (expandSystemOutcome m.systemOutcome).length)).prod := by
  unfold generateOutcomeCombinations
  rw [foldl_expansion_length]
  simp

/-- One expansion step preserves duplicate-freeness of the row set. -/
theorem expansion_step_nodup (combinations : List (List Outcome)) (outs : List Outcome)
    (h1 : combinations.Nodup) (h2 : outs.Nodup) :
    (combinations.flatMap (fun combination =>
        outs.map (fun outcome => combination ++ [outcome]))).Nodup := by
  rw [List.nodup_flatMap]
  constructor
  · intro c _
    exact h2.map (fun o1 o2 h => by
      have := List.append_inj_right h rfl
      simpa using this)
  · refine List.Pairwise.imp ?_ h1
    intro c1 c2 hne
    simp only [Function.onFun]
    rw [List.disjoint_left]
    rintro x hx1 hx2
    rcases List.mem_map.mp hx1 with ⟨o1, _, rfl⟩
    rcases List.mem_map.mp hx2 with ⟨o2, _, heq⟩
    have hlen : c2.length = c1.length := by
      have := congrArg List.length heq
      simpa using this
    exact hne (List.append_inj_left heq.symm hlen.symm)

/-- C5: all rows produced by a single expansion of a coverage plan are
pairwise distinct. -/
theorem generateOutcomeCombinations_nodup (systemMatches : List SystemMatch) :
    (generateOutcomeCombinations systemMatches).Nodup := by
  unfold generateOutcomeCombinations
  have h : ∀ acc : List (List Outcome), acc.Nodup →
      (systemMatches.foldl
        (fun combinations m =>
          combinations.flatMap (fun combination =>
            (expandSystemOutcome m.systemOutcome).map
              (fun outcome => combination ++ [outcome])))
        acc).Nodup := by
    induction systemMatches with
    | nil => intro acc hacc; simpa using hacc
    | cons m t ih =>
        intro acc hacc
        exact ih _ (expansion_step_nodup acc _ hacc (expandSystemOutcome_nodup _))
  exact h [[]] (by decide)

/-- The return type of systemGenerator.ts, selectIntelligentHalf: one of the
three half coverages 1X, 12, X2. -/
inductive HalfPick where
  | h1X
  | h12
  | hX2
  deriving DecidableEq, Repr

/-- Injection of a half coverage into SystemOutcome. -/
def HalfPick.toSystemOutcome : HalfPick → SystemOutcome
  | .h1X => .s1X
  | .h12 => .s12
  | .hX2 => .sX2

/-- The return type of systemGenerator.ts, selectIntelligentSingle: one of the
three single outcomes 1, X, 2. -/
inductive SinglePick where
  | p1
  | pX
  | p2
  deriving DecidableEq, Repr

/-- Injection of a single pick into SystemOutcome. -/
def SinglePick.toSystemOutcome : SinglePick → SystemOutcome
  | .p1 => .s1
  | .pX => .sX
  | .p2 => .s2

/-- types/system.ts, the distribution field of SystemConfiguration.  Counts
are modelled as integers: the TypeScript number fields are unchecked and may
in particular be negative. -/
structure SystemDistribution where
  halves : ℤ
  fulls : ℤ
  singles : ℤ
  deriving DecidableEq, Repr

/-- types/system.ts, SystemConfiguration. -/
structure SystemConfiguration where
  totalRows : ℕ
  cost : ℚ
  costPerRow : ℚ
  distribution : SystemDistribution
  deriving DecidableEq, Repr

/-- The assignment loop of systemGenerator.ts, selectSystemOutcomes: walk the
strategic ordering; while fewer than the configured number of halves have been
assigned, assign a half; then while fewer than the configured number of fulls
have been assigned, assign the full coverage 1X2; afterwards assign singles.
The intelligent half/single choices consume Math.random and the per-match
analysis, so they enter as oracle functions from the match index. -/
def assignSystemOutcomes (halves fulls : ℤ)
    (pickHalf : ℕ → HalfPick) (pickSingle : ℕ → SinglePick) :
    List ℕ → ℕ → ℕ → List (ℕ × SystemOutcome)
  | [], _, _ => []
  | index :: rest, halvesAssigned, fullsAssigned =>
    if (halvesAssigned : ℤ) < halves then
      (index, (pickHalf index).toSystemOutcome)
        :: assignSystemOutcomes halves fulls pickHalf pickSingle rest
             (halvesAssigned + 1) fullsAssigned
    else if (fullsAssigned : ℤ) < fulls then
      (index, SystemOutcome.s1X2)
        :: assignSystemOutcomes halves fulls pickHalf pickSingle rest
             halvesAssigned (fullsAssigned + 1)
    else
      (index, (pickSingle index).toSystemOutcome)
        :: assignSystemOutcomes halves fulls pickHalf pickSingle rest
             halvesAssigned fullsAssigned

/-- The scatter writes systemMatches[analysis.index] = ... of
selectSystemOutcomes, modelled as positional writes into a list of slots. -/
def writeAssignments (slots : List (Option SystemOutcome))
    (assignments : List (ℕ × SystemOutcome)) : List (Option SystemOutcome) :=
  assignments.foldl (fun acc p => acc.set p.1 (some p.2)) slots

/-- Placeholder match used only to make positional reads total. -/
def defaultMatch : MatchWithOdds :=
  { matchId := "", odds := ⟨1, 1, 1⟩, probabilities := ⟨0, 0, 0⟩ }

/-- systemGenerator.ts, selectSystemOutcomes.  The strategic ranking (sort by
0.6*uncertainty + 0.4*value followed by the profile-dependent random
perturbation) is modelled by the oracle parameter strategicOrder, the list of
original match indices in processed order.  The result array is indexed by
original match position; a slot no assignment reached stays at the TypeScript
undefined, which expandSystemOutcome's default branch later treats as the
single outcome 1, modelled here by the fallback SystemOutcome.s1. -/
def selectSystemOutcomes («matches» : List MatchWithOdds) (config : SystemConfiguration)
    (strategicOrder : List ℕ) (pickHalf : ℕ → HalfPick) (pickSingle : ℕ → SinglePick) :
    List SystemMatch :=
  let assignments := assignSystemOutcomes config.distribution.halves config.distribution.fulls
      pickHalf pickSingle strategicOrder 0 0
  let slots := writeAssignments (List.replicate «matches».length none) assignments
  (List.range «matches».length).map (fun i =>
    let m := «matches».getD i defaultMatch
    { matchId := m.matchId, odds := m.odds, probabilities := m.probabilities,
      systemOutcome := (slots.getD i none).getD SystemOutcome.s1 })

/-- Placeholder system match used only to make positional reads total. -/
def defaultSystemMatch : SystemMatch :=
  { matchId := "", odds := ⟨1, 1, 1⟩, probabilities := ⟨0, 0, 0⟩,
    systemOutcome := SystemOutcome.s1 }

/-- systemGenerator.ts, a generated row: outcome sequence with its expected
correct count and estimated payout. -/
structure GeneratedRow where
  outcomes : List Outcome
  expectedCorrect : ℚ
  expectedPayout : ℚ
  deriving DecidableEq, Repr

/-- systemGenerator.ts, calculateRowExpectedCorrect: sum over positions of the
probability of the chosen outcome. -/
def calculateRowExpectedCorrect (outcomes : List Outcome)
    (systemMatches : List SystemMatch) : ℚ :=
  ((outcomes.zip systemMatches).map (fun p =>
    match p.1 with
    | .one => p.2.probabilities.home
    | .X => p.2.probabilities.draw
    | .two => p.2.probabilities.away)).sum

/-- systemGenerator.ts, estimateRowPayout: 65% of the product of the chosen
odds, capped at 100000. -/
def estimateRowPayout (outcomes : List Outcome) (systemMatches : List SystemMatch) : ℚ :=
  let totalOdds := ((outcomes.zip systemMatches).map (fun p =>
    match p.1 with
    | .one => p.2.odds.home
    | .X => p.2.odds.draw
    | .two => p.2.odds.away)).prod
  min (totalOdds * (65/100)) 100000

/-- systemGenerator.ts, generateAllSystemRows: one GeneratedRow per expanded
outcome combination. -/
def generateAllSystemRows (systemMatches : List SystemMatch) : List GeneratedRow :=
  (generateOutcomeCombinations systemMatches).map (fun outcomes =>
    { outcomes := outcomes
      expectedCorrect := calculateRowExpectedCorrect outcomes systemMatches
      expectedPayout := estimateRowPayout outcomes systemMatches })

/-- systemGenerator.ts, calculateSystemExpectedCorrect: mean expected correct
across rows. -/
def calculateSystemExpectedCorrect (allRows : List GeneratedRow) : ℚ :=
  (allRows.map GeneratedRow.expectedCorrect).sum / allRows.length

/-- systemGenerator.ts, calculateSystemExpectedPayout: mean estimated payout
across rows. -/
def calculateSystemExpectedPayout (allRows : List GeneratedRow) : ℚ :=
  (allRows.map GeneratedRow.expectedPayout).sum / allRows.length

/-- types/system.ts, GeneratedSystem (the id and createdAt strings, produced
from the clock and Math.random, are omitted). -/
structure GeneratedSystem where
  «matches» : List SystemMatch
  configuration : SystemConfiguration
  allRows : List GeneratedRow
  expectedCorrect : ℚ
  expectedPayout : ℚ
  riskProfile : String
  deriving DecidableEq, Repr

/-- systemGenerator.ts, generateSystem: allocate coverage, expand all rows,
aggregate the metrics.  No validation of the configuration occurs anywhere on
this path. -/
def generateSystem («matches» : List MatchWithOdds) (systemConfig : SystemConfiguration)
    (riskProfile : String) (strategicOrder : List ℕ)
    (pickHalf : ℕ → HalfPick) (pickSingle : ℕ → SinglePick) : GeneratedSystem :=
  let systemMatches := selectSystemOutcomes «matches» systemConfig strategicOrder pickHalf pickSingle
  let allRows := generateAllSystemRows systemMatches
  { «matches» := systemMatches
    configuration := systemConfig
    allRows := allRows
    expectedCorrect := calculateSystemExpectedCorrect allRows
    expectedPayout := calculateSystemExpectedPayout allRows
    riskProfile := riskProfile }

/-- Positional read with a default equals the total read when in bounds. -/
theorem getD_eq_get {α : Type} (l : List α) (d : α) (i : ℕ) (h : i < l.length) :
    l.getD i d = l.get ⟨i, h⟩ := by
  simp [List.getD_eq_getElem?_getD, List.getElem?_eq_getElem h]

/-- Characterization of the rows reachable by the expansion fold: a row comes
from some starting partial row extended by one allowed outcome per match, in
order. -/
theorem mem_expansion_foldl (systemMatches : List SystemMatch) :
    ∀ (acc : List (List Outcome)) (row : List Outcome),
      (row ∈ systemMatches.foldl
        (fun combinations m =>
          combinations.flatMap (fun combination =>
            (expandSystemOutcome m.systemOutcome).map (fun outcome => combination ++ [outcome])))
        acc)
      ↔ ∃ c ∈ acc, ∃ t, row = c ++ t ∧
          List.Forall₂ (fun o m => o ∈ expandSystemOutcome m.systemOutcome) t systemMatches := by
  induction systemMatches with
  | nil =>
      intro acc row
      simp [List.forall₂_nil_right_iff]
  | cons m ms ih =>
      intro acc row
      rw [List.foldl_cons, ih]
      constructor
      · rintro ⟨c1, hc1, t, rfl, hf⟩
        rcases List.mem_flatMap.mp hc1 with ⟨c, hc, hmem⟩
        rcases List.mem_map.mp hmem with ⟨o, ho, rfl⟩
        exact ⟨c, hc, o :: t, by simp, List.Forall₂.cons ho hf⟩
      · rintro ⟨c, hc, t, rfl, hf⟩
        cases hf with
        | cons ho hf2 =>
            exact ⟨_, List.mem_flatMap.mpr ⟨c, hc, List.mem_map.mpr ⟨_, ho, rfl⟩⟩,
              _, by simp, hf2⟩

/-- A row is produced by the expander exactly when it selects, per position,
an outcome allowed by that match's system outcome. -/
theorem mem_generateOutcomeCombinations (systemMatches : List SystemMatch) (row : List Outcome) :
    row ∈ generateOutcomeCombinations systemMatches
      ↔ List.Forall₂ (fun o m => o ∈ expandSystemOutcome m.systemOutcome) row systemMatches := by
  unfold generateOutcomeCombinations
  rw [mem_expansion_foldl]
  constructor
  · rintro ⟨c, hc, t, rfl, hf⟩
    simp only [List.mem_singleton] at hc
    subst hc
    simpa using hf
  · intro hf
    exact ⟨[], by simp, row, by simp, hf⟩

/-- The allocator output has one entry per input match. -/
theorem selectSystemOutcomes_length («matches» : List MatchWithOdds)
    (config : SystemConfiguration) (strategicOrder : List ℕ)
    (pickHalf : ℕ → HalfPick) (pickSingle : ℕ → SinglePick) :
    (selectSystemOutcomes «matches» config strategicOrder pickHalf pickSingle).length
      = «matches».length := by
  simp [selectSystemOutcomes]

/-- Reading position i of the allocator output yields match i's data tagged
with the outcome written into slot i. -/
theorem selectSystemOutcomes_getD («matches» : List MatchWithOdds)
    (config : SystemConfiguration) (strategicOrder : List ℕ)
    (pickHalf : ℕ → HalfPick) (pickSingle : ℕ → SinglePick) (i : ℕ)
    (h : i < «matches».length) :
    (selectSystemOutcomes «matches» config strategicOrder pickHalf pickSingle).getD i
        defaultSystemMatch
      = { matchId := («matches».getD i defaultMatch).matchId
          odds := («matches».getD i defaultMatch).odds
          probabilities := («matches».getD i defaultMatch).probabilities
          systemOutcome := (((writeAssignments (List.replicate «matches».length none)
              (assignSystemOutcomes config.distribution.halves config.distribution.fulls
                pickHalf pickSingle strategicOrder 0 0)).getD i none).getD SystemOutcome.s1) } := by
  unfold selectSystemOutcomes
  simp [List.getD_eq_getElem?_getD, List.getElem?_range, h]

/-- C6: for every coverage plan over a 13-match slate produced by the
allocator, the outcome at position i of every expanded row belongs to the
covered set of the system outcome assigned to match i, where position i of the
allocator output carries match i of the original, unshuffled match order. -/
theorem coverage_consistency («matches» : List MatchWithOdds) (config : SystemConfiguration)
    (strategicOrder : List ℕ) (pickHalf : ℕ → HalfPick) (pickSingle : ℕ → SinglePick)
    (hlen : «matches».length = 13) (row : List Outcome)
    (hrow : row ∈ generateOutcomeCombinations
        (selectSystemOutcomes «matches» config strategicOrder pickHalf pickSingle))
    (i : ℕ) (hi : i < row.length) :
    row.getD i Outcome.one ∈ expandSystemOutcome
        (((selectSystemOutcomes «matches» config strategicOrder pickHalf pickSingle).getD i
            defaultSystemMatch).systemOutcome) ∧
    ((selectSystemOutcomes «matches» config strategicOrder pickHalf pickSingle).getD i
        defaultSystemMatch).matchId
      = («matches».getD i defaultMatch).matchId := by
  have hf := (mem_generateOutcomeCombinations _ _).mp hrow
  have hlen2 := hf.length_eq
  have hi2 : i < (selectSystemOutcomes «matches» config strategicOrder pickHalf
      pickSingle).length := hlen2 ▸ hi
  have him : i < «matches».length := by
    rw [← selectSystemOutcomes_length «matches» config strategicOrder pickHalf pickSingle]
    exact hi2
  constructor
  · rw [getD_eq_get row Outcome.one i hi,
      getD_eq_get _ defaultSystemMatch i hi2]
    exact hf.get hi hi2
  · rw [selectSystemOutcomes_getD «matches» config strategicOrder pickHalf pickSingle i him]

/-- A concrete match with the odds of spec Example 1 and its normalized
probabilities. -/
def exampleMatch : MatchWithOdds :=
  { matchId := "match1", odds := ⟨2, 3, 4⟩, probabilities := ⟨6/13, 4/13, 3/13⟩ }

/-- A concrete 13-match slate. -/
def exampleSlate : List MatchWithOdds := List.replicate 13 exampleMatch

/-- types/system.ts, SYSTEM_PRESETS entry system-96: 5 halves + 1 full +
7 singles = 96 rows. -/
def systemPreset96 : SystemConfiguration :=
  { totalRows := 96, cost := 96, costPerRow := 1, distribution := ⟨5, 1, 7⟩ }

/-- Witness for C6 on the 13-match slate with the 96-row preset: the all-home
row is among the expanded rows and its position-0 outcome is covered by the
system outcome assigned to match 0, which carries match 0's id. -/
theorem coverage_consistency_witness :
    exampleSlate.length = 13 ∧
    List.replicate 13 Outcome.one ∈ generateOutcomeCombinations
      (selectSystemOutcomes exampleSlate systemPreset96 (List.range 13)
        (fun _ => HalfPick.h1X) (fun _ => SinglePick.p1)) ∧
    0 < (List.replicate 13 Outcome.one).length ∧
    ((List.replicate 13 Outcome.one).getD 0 Outcome.one ∈ expandSystemOutcome
        (((selectSystemOutcomes exampleSlate systemPreset96 (List.range 13)
            (fun _ => HalfPick.h1X) (fun _ => SinglePick.p1)).getD 0
              defaultSystemMatch).systemOutcome) ∧
      ((selectSystemOutcomes exampleSlate systemPreset96 (List.range 13)
          (fun _ => HalfPick.h1X) (fun _ => SinglePick.p1)).getD 0
            defaultSystemMatch).matchId
        = (exampleSlate.getD 0 defaultMatch).matchId) :=
  ⟨by decide, by decide, by decide,
   coverage_consistency exampleSlate systemPreset96 (List.range 13)
     (fun _ => HalfPick.h1X) (fun _ => SinglePick.p1) (by decide)
     (List.replicate 13 Outcome.one) (by decide) 0 (by decide)⟩

/-- C4 (amended): generateSystem performs no validation of the configuration
counts.  For every configuration — counts not summing to the slate size, or
negative — allocation completes with one system match per input match and the
expansion produces at least one row; there is no rejection or error path. -/
theorem generateSystem_no_validation («matches» : List MatchWithOdds)
    (config : SystemConfiguration) (riskProfile : String) (strategicOrder : List ℕ)
    (pickHalf : ℕ → HalfPick) (pickSingle : ℕ → SinglePick) :
    (generateSystem «matches» config riskProfile strategicOrder
        pickHalf pickSingle).«matches».length = «matches».length ∧
    0 < (generateSystem «matches» config riskProfile strategicOrder
        pickHalf pickSingle).allRows.length := by
  constructor
  · simp [generateSystem, selectSystemOutcomes]
  · show 0 < (generateAllSystemRows _).length
    unfold generateAllSystemRows
    rw [List.length_map, generateOutcomeCombinations_length]
    apply List.prod_pos
    intro a ha
    rcases List.mem_map.mp ha with ⟨m, _, rfl⟩
    exact expandSystemOutcome_length_pos m.systemOutcome

/-- A configuration whose counts sum to 14 on a 13-match slate. -/
def mismatchedConfig : SystemConfiguration :=
  { totalRows := 0, cost := 0, costPerRow := 1, distribution := ⟨0, 0, 14⟩ }

/-- Counterexample for C4: on a 13-match slate with counts {halves 0, fulls 0,
singles 14}, whose sum 14 differs from 13, generateSystem does not reject the
request: allocation assigns all 13 matches and expansion produces a row, so
computation runs to completion instead of failing fast. -/
theorem generateSystem_no_validation_cex :
    (0 : ℤ) + 0 + 14 ≠ 13 ∧
    exampleSlate.length = 13 ∧
    (generateSystem exampleSlate mismatchedConfig "safe" (List.range 13)
        (fun _ => HalfPick.h1X) (fun _ => SinglePick.p1)).«matches».length = 13 ∧
    (generateSystem exampleSlate mismatchedConfig "safe" (List.range 13)
        (fun _ => HalfPick.h1X) (fun _ => SinglePick.p1)).allRows.length = 1 :=
  ⟨by decide, by decide, by decide, by decide⟩

/-- The assignment loop emits exactly one entry per strategic-order index, in
order. -/
theorem assignSystemOutcomes_keys (halves fulls : ℤ)
    (pickHalf : ℕ → HalfPick) (pickSingle : ℕ → SinglePick) :
    ∀ (order : List ℕ) (hA fA : ℕ),
      (assignSystemOutcomes halves fulls pickHalf pickSingle order hA fA).map Prod.fst
        = order := by
  intro order
  induction order with
  | nil => intro hA fA; rfl
  | cons k t ih =>
      intro hA fA
      unfold assignSystemOutcomes
      split_ifs <;> simp [ih]

/-- A half pick always covers two outcomes. -/
theorem halfPick_expansion_length (h : HalfPick) :
    (expandSystemOutcome h.toSystemOutcome).length = 2 := by
  cases h <;> rfl

/-- A single pick always covers one outcome. -/
theorem singlePick_expansion_length (s : SinglePick) :
    (expandSystemOutcome s.toSystemOutcome).length = 1 := by
  cases s <;> rfl

/-- Product of the per-entry expansion sizes along the assignment loop: with
H halves and F fulls still to assign and enough matches remaining, the loop
assigns exactly them, for a branching product of 2^H * 3^F. -/
theorem assignSystemOutcomes_prod (H F : ℕ)
    (pickHalf : ℕ → HalfPick) (pickSingle : ℕ → SinglePick) :
    ∀ (order : List ℕ) (hA fA : ℕ), hA ≤ H → fA ≤ F →
      (H - hA) + (F - fA) ≤ order.length →
      ((assignSystemOutcomes (H : ℤ) (F : ℤ) pickHalf pickSingle order hA fA).map
          (fun p => (expandSystemOutcome p.2).length)).prod
        = 2 ^ (H - hA) * 3 ^ (F - fA) := by
  intro order
  induction order with
  | nil =>
      intro hA fA h1 h2 h3
      simp only [List.length_nil, Nat.le_zero] at h3
      have e1 : H - hA = 0 := by omega
      have e2 : F - fA = 0 := by omega
      simp [assignSystemOutcomes, e1, e2]
  | cons k t ih =>
      intro hA fA h1 h2 h3
      simp only [List.length_cons] at h3
      unfold assignSystemOutcomes
      by_cases hc1 : (hA : ℤ) < (H : ℤ)
      · rw [if_pos hc1]
        have hlt : hA < H := by exact_mod_cast hc1
        simp only [List.map_cons, List.prod_cons, halfPick_expansion_length]
        rw [ih (hA + 1) fA hlt h2 (by omega)]
        have hsplit : H - hA = (H - (hA + 1)) + 1 := by omega
        rw [hsplit, pow_succ]
        ring
      · rw [if_neg hc1]
        have hEq : hA = H := by omega
        by_cases hc2 : (fA : ℤ) < (F : ℤ)
        · rw [if_pos hc2]
          have hlt : fA < F := by exact_mod_cast hc2
          simp only [List.map_cons, List.prod_cons]
          show 3 * _ = _
          rw [ih hA (fA + 1) h1 hlt (by omega)]
          have hsplit : F - fA = (F - (fA + 1)) + 1 := by omega
          rw [hsplit, pow_succ, hEq]
          ring
        · rw [if_neg hc2]
          have hEq2 : fA = F := by omega
          simp only [List.map_cons, List.prod_cons, singlePick_expansion_length]
          rw [ih hA fA h1 h2 (by omega)]
          ring

/-- Slot writes at other keys do not change the value read at key k. -/
theorem writeAssignments_getD_not_mem :
    ∀ (l : List (ℕ × SystemOutcome)) (slots : List (Option SystemOutcome)) (k : ℕ),
      k ∉ l.map Prod.fst →
      (writeAssignments slots l).getD k none = slots.getD k none := by
  intro l
  induction l with
  | nil => intro slots k _; rfl
  | cons p t ih =>
      intro slots k h
      simp only [List.map_cons, List.mem_cons, not_or] at h
      show (writeAssignments (slots.set p.1 (some p.2)) t).getD k none = _
      rw [ih _ _ h.2]
      rw [List.getD_eq_getElem?_getD, List.getD_eq_getElem?_getD,
        List.getElem?_set_ne (fun hpk => h.1 hpk.symm)]

/-- With duplicate-free keys, reading the slot written for key k returns the
value assigned to k. -/
theorem writeAssignments_getD_mem :
    ∀ (l : List (ℕ × SystemOutcome)) (slots : List (Option SystemOutcome))
      (k : ℕ) (v : SystemOutcome),
      (l.map Prod.fst).Nodup → (k, v) ∈ l → k < slots.length →
      (writeAssignments slots l).getD k none = some v := by
  intro l
  induction l with
  | nil =>
      intro slots k v _ hmem _
      simp at hmem
  | cons p t ih =>
      intro slots k v hnd hmem hk
      simp only [List.map_cons, List.nodup_cons] at hnd
      rcases List.mem_cons.mp hmem with heq | hmem2
      · have hp1 : p.1 = k := by rw [← heq]
        have hp2 : p.2 = v := by rw [← heq]
        show (writeAssignments (slots.set p.1 (some p.2)) t).getD k none = some v
        rw [writeAssignments_getD_not_mem t _ k (hp1 ▸ hnd.1)]
        rw [List.getD_eq_getElem?_getD, hp1, hp2,
          List.getElem?_set_eq_of_lt (some v) hk]
        rfl
      · show (writeAssignments (slots.set p.1 (some p.2)) t).getD k none = some v
        exact ih _ k v hnd.2 hmem2 (by simpa using hk)

/-- The rows of a generated system are the expansion of its allocator
output. -/
theorem generateSystem_allRows («matches» : List MatchWithOdds) (config : SystemConfiguration)
    (riskProfile : String) (strategicOrder : List ℕ)
    (pickHalf : ℕ → HalfPick) (pickSingle : ℕ → SinglePick) :
    (generateSystem «matches» config riskProfile strategicOrder pickHalf pickSingle).allRows
      = generateAllSystemRows
          (selectSystemOutcomes «matches» config strategicOrder pickHalf pickSingle) := rfl

/-- Expansion sizes of the allocator output, read off positionally from the
written slots. -/
theorem selectSystemOutcomes_map_expansion («matches» : List MatchWithOdds)
    (config : SystemConfiguration) (strategicOrder : List ℕ)
    (pickHalf : ℕ → HalfPick) (pickSingle : ℕ → SinglePick) :
    (selectSystemOutcomes «matches» config strategicOrder pickHalf pickSingle).map
        (fun m => (expandSystemOutcome m.systemOutcome).length)
      = (List.range «matches».length).map (fun i =>
          (expandSystemOutcome (((writeAssignments (List.replicate «matches».length none)
              (assignSystemOutcomes config.distribution.halves config.distribution.fulls
                pickHalf pickSingle strategicOrder 0 0)).getD i none).getD
                  SystemOutcome.s1)).length) := by
  unfold selectSystemOutcomes
  rw [List.map_map]
  rfl

/-- C1: for every 13-match slate and every configuration whose counts are
non-negative and sum to 13, the system expansion produces exactly
2^halves * 3^fulls rows, for any strategic ordering of the slate and any
intelligent half/single choices. -/
theorem system_row_count («matches» : List MatchWithOdds) (config : SystemConfiguration)
    (riskProfile : String) (strategicOrder : List ℕ)
    (pickHalf : ℕ → HalfPick) (pickSingle : ℕ → SinglePick)
    (hlen : «matches».length = 13)
    (hperm : strategicOrder.Perm (List.range «matches».length))
    (hH : 0 ≤ config.distribution.halves) (hF : 0 ≤ config.distribution.fulls)
    (hS : 0 ≤ config.distribution.singles)
    (hsum : config.distribution.halves + config.distribution.fulls
        + config.distribution.singles = 13) :
    (generateSystem «matches» config riskProfile strategicOrder
        pickHalf pickSingle).allRows.length
      = 2 ^ config.distribution.halves.toNat * 3 ^ config.distribution.fulls.toNat := by
  have hHcast : config.distribution.halves = (config.distribution.halves.toNat : ℤ) :=
    (Int.toNat_of_nonneg hH).symm
  have hFcast : config.distribution.fulls = (config.distribution.fulls.toNat : ℤ) :=
    (Int.toNat_of_nonneg hF).symm
  have horderlen : strategicOrder.length = «matches».length := by
    rw [hperm.length_eq, List.length_range]
  rw [generateSystem_allRows]
  unfold generateAllSystemRows
  rw [List.length_map, generateOutcomeCombinations_length, selectSystemOutcomes_map_expansion]
  set l := assignSystemOutcomes config.distribution.halves config.distribution.fulls
      pickHalf pickSingle strategicOrder 0 0 with hl
  set slots := writeAssignments (List.replicate «matches».length none) l with hslots
  set g : ℕ → ℕ := fun i =>
      (expandSystemOutcome ((slots.getD i none).getD SystemOutcome.s1)).length with hg
  have hkeys : l.map Prod.fst = strategicOrder := by
    rw [hl]
    exact assignSystemOutcomes_keys _ _ _ _ strategicOrder 0 0
  have hnd : (l.map Prod.fst).Nodup := by
    rw [hkeys]
    exact (List.Perm.nodup_iff hperm).mpr (List.nodup_range _)
  have hvals : ∀ p ∈ l, (g ∘ Prod.fst) p = (expandSystemOutcome p.2).length := by
    intro p hp
    have hkmem : p.1 ∈ strategicOrder := by
      rw [← hkeys]
      exact List.mem_map_of_mem Prod.fst hp
    have hklt : p.1 < «matches».length :=
      List.mem_range.mp (hperm.subset hkmem)
    have hslot : slots.getD p.1 none = some p.2 := by
      rw [hslots]
      exact writeAssignments_getD_mem l _ p.1 p.2 hnd (by simpa using hp) (by simpa using hklt)
    show (expandSystemOutcome ((slots.getD p.1 none).getD SystemOutcome.s1)).length = _
    rw [hslot]
    rfl
  calc (List.map g (List.range «matches».length)).prod
      = (List.map g strategicOrder).prod := List.Perm.prod_eq ((hperm.symm).map g)
    _ = (List.map (g ∘ Prod.fst) l).prod := by rw [← hkeys, List.map_map]
    _ = (List.map (fun p => (expandSystemOutcome p.2).length) l).prod := by
          rw [List.map_congr_left hvals]
    _ = 2 ^ config.distribution.halves.toNat * 3 ^ config.distribution.fulls.toNat := by
          obtain ⟨H, hHe⟩ : ∃ H : ℕ, config.distribution.halves = (H : ℤ) :=
            ⟨config.distribution.halves.toNat, hHcast⟩
          obtain ⟨F, hFe⟩ : ∃ F : ℕ, config.distribution.fulls = (F : ℤ) :=
            ⟨config.distribution.fulls.toNat, hFcast⟩
          rw [hl, hHe, hFe, Int.toNat_natCast, Int.toNat_natCast]
          have hcond : (H - 0) + (F - 0) ≤ strategicOrder.length := by
            rw [horderlen, hlen]
            omega
          have hp := assignSystemOutcomes_prod H F pickHalf pickSingle strategicOrder 0 0
            (Nat.zero_le _) (Nat.zero_le _) hcond
          simpa using hp

/-- Witness for C1: the 96-row preset (5 halves + 1 full + 7 singles) on the
13-match slate yields exactly 2^5 * 3^1 = 96 rows. -/
theorem system_row_count_witness :
    exampleSlate.length = 13 ∧
    (0:ℤ) ≤ 5 ∧ (0:ℤ) ≤ 1 ∧ (0:ℤ) ≤ 7 ∧ (5:ℤ) + 1 + 7 = 13 ∧
    (generateSystem exampleSlate systemPreset96 "safe" (List.range 13)
        (fun _ => HalfPick.h1X) (fun _ => SinglePick.p1)).allRows.length
      = 2 ^ systemPreset96.distribution.halves.toNat
          * 3 ^ systemPreset96.distribution.fulls.toNat ∧
    2 ^ systemPreset96.distribution.halves.toNat
        * 3 ^ systemPreset96.distribution.fulls.toNat = 96 :=
  ⟨by decide, by decide, by decide, by decide, by decide,
   system_row_count exampleSlate systemPreset96 "safe" (List.range 13)
     (fun _ => HalfPick.h1X) (fun _ => SinglePick.p1) (by decide)
     (List.Perm.refl (List.range 13)) (by decide) (by decide) (by decide) (by decide),
   by decide⟩

/-- The probability a triple attaches to an outcome. -/
def Prob3.probOf (p : Prob3) : Outcome → ℚ
  | .one => p.home
  | .X => p.draw
  | .two => p.away

/-- footballIntelligence, the recommendations record of MatchIntelligence. -/
structure Recommendations where
  safePick : Outcome
  valuePick : Outcome
  contrarian : Outcome
  confidence : ℚ
  deriving DecidableEq, Repr

/-- footballIntelligence, the scores record of MatchIntelligence. -/
structure IntelligenceScores where
  valueScore : ℚ
  publicSentiment : ℚ
  expertConsensus : ℚ
  homeAdvantage : ℚ
  uncertaintyScore : ℚ
  contrarian : ℚ
  deriving DecidableEq, Repr

/-- footballIntelligence, MatchIntelligence: a match with its intelligence
scores and recommendations. -/
structure MatchIntelligence where
  matchData : MatchWithOdds
  scores : IntelligenceScores
  recommendations : Recommendations
  deriving DecidableEq, Repr

/-- footballIntelligence, getSafePick: all three probabilities are scaled by
the same weight 0.7 + 0.3 * expertConsensus, then the largest wins, ties
preferring home over draw over away. -/
def getSafePick (probabilities : Prob3) (expertConsensus : ℚ) : Outcome :=
  let weight := 7/10 + expertConsensus * (3/10)
  let wHome := probabilities.home * weight
  let wDraw := probabilities.draw * weight
  let wAway := probabilities.away * weight
  if wHome ≥ wDraw ∧ wHome ≥ wAway then .one
  else if wDraw ≥ wAway then .X
  else .two

/-- systemGenerator.ts, selectIntelligentHalf.  The three Math.random draws of
the risky branch (contrarian trigger, contrarian secondary choice, value
secondary choice) enter as the oracle inputs randContrarian / randFactor /
randChoice. -/
def selectIntelligentHalf (analysis : MatchIntelligence) (riskProfile : String)
    (randContrarian randFactor randChoice : ℚ) : HalfPick :=
  let home := analysis.matchData.probabilities.home
  let draw := analysis.matchData.probabilities.draw
  let away := analysis.matchData.probabilities.away
  if riskProfile = "safe" then
    match analysis.recommendations.safePick with
    | .one => if draw > away then .h1X else .h12
    | .X => if home > away then .h1X else .hX2
    | .two => if home > draw then .h12 else .hX2
  else if riskProfile = "risky" then
    if randContrarian < analysis.scores.contrarian * (8/10) + 2/10 then
      match analysis.recommendations.contrarian with
      | .one => if randFactor < 33/100 then .h1X
                else if randFactor < 66/100 then .h12
                else if draw > away then .h1X else .h12
      | .X => if randFactor < 33/100 then .h1X
              else if randFactor < 66/100 then .hX2
              else if home > away then .h1X else .hX2
      | .two => if randFactor < 33/100 then .h12
                else if randFactor < 66/100 then .hX2
                else if home > draw then .h12 else .hX2
    else
      match analysis.recommendations.valuePick with
      | .one => if randChoice < 6/10 then (if draw > away then .h1X else .h12)
                else if randChoice < 8/10 then .h1X else .h12
      | .X => if randChoice < 6/10 then (if home > away then .h1X else .hX2)
              else if randChoice < 8/10 then .h1X else .hX2
      | .two => if randChoice < 6/10 then (if home > draw then .h12 else .hX2)
                else if randChoice < 8/10 then .h12 else .hX2
  else
    let basePick := if analysis.recommendations.confidence > 7/10
      then analysis.recommendations.safePick else analysis.recommendations.valuePick
    match basePick with
    | .one => if draw > away then .h1X else .h12
    | .X => if home > away then .h1X else .hX2
    | .two => if home > draw then .h12 else .hX2

/-- With a non-negative consensus weight, getSafePick is the plain argmax of
the probabilities, ties preferring home, then draw. -/
theorem getSafePick_argmax (p : Prob3) (e : ℚ) (he : 0 ≤ e) :
    getSafePick p e
      = if p.home ≥ p.draw ∧ p.home ≥ p.away then .one
        else if p.draw ≥ p.away then .X else .two := by
  have hw : (0:ℚ) < 7/10 + e * (3/10) := by linarith
  have hiff : ∀ a b : ℚ, (a * (7/10 + e * (3/10)) ≤ b * (7/10 + e * (3/10))) ↔ a ≤ b :=
    fun a b => ⟨fun h => le_of_mul_le_mul_right h hw,
                fun h => mul_le_mul_of_nonneg_right h hw.le⟩
  unfold getSafePick
  simp only [ge_iff_le, hiff]

/-- Coverage 1X beats the excluded away outcome when away is strictly least
probable. -/
theorem half_covers_1X (p : Prob3) (h1 : p.away < p.home) (h2 : p.away < p.draw) :
    ∀ o1 ∈ expandSystemOutcome HalfPick.h1X.toSystemOutcome,
      ∀ o2, o2 ∉ expandSystemOutcome HalfPick.h1X.toSystemOutcome →
        p.probOf o2 < p.probOf o1 := by
  intro o1 ho1 o2 ho2
  simp only [HalfPick.toSystemOutcome, expandSystemOutcome, List.mem_cons,
    List.mem_singleton, List.not_mem_nil, or_false] at ho1 ho2
  push_neg at ho2
  cases o2 with
  | one => exact absurd rfl ho2.1
  | X => exact absurd rfl ho2.2
  | two =>
      rcases ho1 with rfl | rfl
      · exact h1
      · exact h2

/-- Coverage 12 beats the excluded draw outcome when draw is strictly least
probable. -/
theorem half_covers_12 (p : Prob3) (h1 : p.draw < p.home) (h2 : p.draw < p.away) :
    ∀ o1 ∈ expandSystemOutcome HalfPick.h12.toSystemOutcome,
      ∀ o2, o2 ∉ expandSystemOutcome HalfPick.h12.toSystemOutcome →
        p.probOf o2 < p.probOf o1 := by
  intro o1 ho1 o2 ho2
  simp only [HalfPick.toSystemOutcome, expandSystemOutcome, List.mem_cons,
    List.mem_singleton, List.not_mem_nil, or_false] at ho1 ho2
  push_neg at ho2
  cases o2 with
  | one => exact absurd rfl ho2.1
  | two => exact absurd rfl ho2.2
  | X =>
      rcases ho1 with rfl | rfl
      · exact h1
      · exact h2

/-- Coverage X2 beats the excluded home outcome when home is strictly least
probable. -/
theorem half_covers_X2 (p : Prob3) (h1 : p.home < p.draw) (h2 : p.home < p.away) :
    ∀ o1 ∈ expandSystemOutcome HalfPick.hX2.toSystemOutcome,
      ∀ o2, o2 ∉ expandSystemOutcome HalfPick.hX2.toSystemOutcome →
        p.probOf o2 < p.probOf o1 := by
  intro o1 ho1 o2 ho2
  simp only [HalfPick.toSystemOutcome, expandSystemOutcome, List.mem_cons,
    List.mem_singleton, List.not_mem_nil, or_false] at ho1 ho2
  push_neg at ho2
  cases o2 with
  | X => exact absurd rfl ho2.1
  | two => exact absurd rfl ho2.2
  | one =>
      rcases ho1 with rfl | rfl
      · exact h1
      · exact h2

/-- C9: for every match whose three probabilities are pairwise distinct, the
half selected under the safe risk profile (whose safe pick comes from
getSafePick with a non-negative consensus score) covers the two most probable
outcomes: every covered outcome is strictly more probable than every excluded
one. -/
theorem selectIntelligentHalf_safe_spec (analysis : MatchIntelligence)
    (e r1 r2 r3 : ℚ) (he : 0 ≤ e)
    (hsafe : analysis.recommendations.safePick
        = getSafePick analysis.matchData.probabilities e)
    (hhd : analysis.matchData.probabilities.home ≠ analysis.matchData.probabilities.draw)
    (hha : analysis.matchData.probabilities.home ≠ analysis.matchData.probabilities.away)
    (hda : analysis.matchData.probabilities.draw ≠ analysis.matchData.probabilities.away) :
    ∀ o1 ∈ expandSystemOutcome
        (selectIntelligentHalf analysis "safe" r1 r2 r3).toSystemOutcome,
      ∀ o2, o2 ∉ expandSystemOutcome
          (selectIntelligentHalf analysis "safe" r1 r2 r3).toSystemOutcome →
        analysis.matchData.probabilities.probOf o2
          < analysis.matchData.probabilities.probOf o1 := by
  set p := analysis.matchData.probabilities with hpdef
  have hpick : analysis.recommendations.safePick
      = if p.home ≥ p.draw ∧ p.home ≥ p.away then .one
        else if p.draw ≥ p.away then .X else .two := by
    rw [hsafe, getSafePick_argmax _ _ he]
  have hsel : selectIntelligentHalf analysis "safe" r1 r2 r3
      = match analysis.recommendations.safePick with
        | .one => if p.draw > p.away then HalfPick.h1X else HalfPick.h12
        | .X => if p.home > p.away then HalfPick.h1X else HalfPick.hX2
        | .two => if p.home > p.draw then HalfPick.h12 else HalfPick.hX2 := by
    unfold selectIntelligentHalf
    rw [if_pos rfl]
  rcases lt_trichotomy p.home p.draw with h1 | h1 | h1
  · rcases lt_trichotomy p.home p.away with h3 | h3 | h3
    · -- home least probable
      have hcond : ¬(p.home ≥ p.draw ∧ p.home ≥ p.away) := by
        rintro ⟨ha1, _⟩
        exact absurd h1 (not_lt.mpr ha1)
      rcases lt_trichotomy p.draw p.away with h2 | h2 | h2
      · -- away > draw > home: pick two, then hX2
        have hval : selectIntelligentHalf analysis "safe" r1 r2 r3 = HalfPick.hX2 := by
          rw [hsel, hpick, if_neg hcond, if_neg (not_le.mpr h2)]
          exact if_neg (not_lt.mpr h1.le)
        rw [hval]
        exact half_covers_X2 p h1 h3
      · exact absurd h2 hda
      · -- draw > away, draw > home: pick X, then h1X or hX2 by home vs away
        have hval : selectIntelligentHalf analysis "safe" r1 r2 r3 = HalfPick.hX2 := by
          rw [hsel, hpick, if_neg hcond, if_pos h2.le]
          exact if_neg (not_lt.mpr h3.le)
        rw [hval]
        exact half_covers_X2 p h1 h3
    · exact absurd h3 hha
    · -- draw > home > away: pick X, half h1X
      have hcond : ¬(p.home ≥ p.draw ∧ p.home ≥ p.away) := by
        rintro ⟨ha1, _⟩
        exact absurd h1 (not_lt.mpr ha1)
      have h2 : p.away < p.draw := lt_trans h3 h1
      have hval : selectIntelligentHalf analysis "safe" r1 r2 r3 = HalfPick.h1X := by
        rw [hsel, hpick, if_neg hcond, if_pos h2.le]
        exact if_pos h3
      rw [hval]
      exact half_covers_1X p h3 h2
  · exact absurd h1 hhd
  · rcases lt_trichotomy p.home p.away with h3 | h3 | h3
    · -- away > home > draw: argmax fails on away, draw ≥ away fails: pick two, h12
      have hcond : ¬(p.home ≥ p.draw ∧ p.home ≥ p.away) := by
        rintro ⟨_, ha2⟩
        exact absurd h3 (not_lt.mpr ha2)
      have h2 : p.draw < p.away := lt_trans h1 h3
      have hval : selectIntelligentHalf analysis "safe" r1 r2 r3 = HalfPick.h12 := by
        rw [hsel, hpick, if_neg hcond, if_neg (not_le.mpr h2)]
        exact if_pos h1
      rw [hval]
      exact half_covers_12 p h1 h2
    · exact absurd h3 hha
    · -- home most probable: pick one, then h1X or h12 by draw vs away
      have hcond : p.home ≥ p.draw ∧ p.home ≥ p.away := ⟨h1.le, h3.le⟩
      rcases lt_trichotomy p.draw p.away with h2 | h2 | h2
      · have hval : selectIntelligentHalf analysis "safe" r1 r2 r3 = HalfPick.h12 := by
          rw [hsel, hpick, if_pos hcond]
          exact if_neg (not_lt.mpr h2.le)
        rw [hval]
        exact half_covers_12 p h1 h2
      · exact absurd h2 hda
      · have hval : selectIntelligentHalf analysis "safe" r1 r2 r3 = HalfPick.h1X := by
          rw [hsel, hpick, if_pos hcond]
          exact if_pos h2
        rw [hval]
        exact half_covers_1X p h3 h2

/-- A concrete intelligence record for the example match whose safe pick is
produced by getSafePick at consensus 1/2. -/
def exampleAnalysis : MatchIntelligence :=
  { matchData := exampleMatch
    scores := ⟨0, 0, 1/2, 0, 0, 0⟩
    recommendations :=
      { safePick := getSafePick exampleMatch.probabilities (1/2)
        valuePick := .one
        contrarian := .two
        confidence := 1/2 } }

/-- Witness for C9 at the example match (probabilities 6/13 > 4/13 > 3/13):
the safe half covers home and draw, each strictly more probable than the
excluded away outcome. -/
theorem selectIntelligentHalf_safe_spec_witness :
    (0:ℚ) ≤ 1/2 ∧
    exampleAnalysis.recommendations.safePick
      = getSafePick exampleAnalysis.matchData.probabilities (1/2) ∧
    exampleAnalysis.matchData.probabilities.home
      ≠ exampleAnalysis.matchData.probabilities.draw ∧
    exampleAnalysis.matchData.probabilities.home
      ≠ exampleAnalysis.matchData.probabilities.away ∧
    exampleAnalysis.matchData.probabilities.draw
      ≠ exampleAnalysis.matchData.probabilities.away ∧
    (∀ o1 ∈ expandSystemOutcome
        (selectIntelligentHalf exampleAnalysis "safe" 0 0 0).toSystemOutcome,
      ∀ o2, o2 ∉ expandSystemOutcome
          (selectIntelligentHalf exampleAnalysis "safe" 0 0 0).toSystemOutcome →
        exampleAnalysis.matchData.probabilities.probOf o2
          < exampleAnalysis.matchData.probabilities.probOf o1) :=
  ⟨by norm_num, rfl,
   by norm_num [exampleAnalysis, exampleMatch],
   by norm_num [exampleAnalysis, exampleMatch],
   by norm_num [exampleAnalysis, exampleMatch],
   selectIntelligentHalf_safe_spec exampleAnalysis (1/2) 0 0 0
     (by norm_num) rfl
     (by norm_num [exampleAnalysis, exampleMatch])
     (by norm_num [exampleAnalysis, exampleMatch])
     (by norm_num [exampleAnalysis, exampleMatch])⟩

/-- odds.ts, selectWeightedRandomOutcome: weighted sampling by one uniform
draw u — home if u < p.home, draw if u < p.home + p.draw, else away. -/
def selectWeightedRandomOutcome (probabilities : Prob3) (u : ℚ) : Outcome :=
  if u < probabilities.home then .one
  else if u < probabilities.home + probabilities.draw then .X
  else .two

/-- odds.ts, simulateMatchday: draw a realized outcome per match (one uniform
draw each, supplied by the oracle rand) and count positions where the
prediction matches it. -/
def simulateMatchday (predictions : List Outcome) («matches» : List MatchWithOdds)
    (rand : ℕ → ℚ) : ℕ :=
  (List.range «matches».length).foldl
    (fun correctCount i =>
      match predictions[i]?, «matches»[i]? with
      | some prediction, some m =>
          if prediction = selectWeightedRandomOutcome m.probabilities (rand i)
          then correctCount + 1 else correctCount
      | _, _ => correctCount)
    0

/-- odds.ts, the results tally of simulateRow: exact and at-least counts for
the thresholds 10..13. -/
structure CorrectCountTally where
  exactly10 : ℕ
  exactly11 : ℕ
  exactly12 : ℕ
  exactly13 : ℕ
  atLeast10 : ℕ
  atLeast11 : ℕ
  atLeast12 : ℕ
  atLeast13 : ℕ
  deriving DecidableEq, Repr

/-- The all-zero tally simulateRow starts from. -/
def initialTally : CorrectCountTally :=
  { exactly10 := 0, exactly11 := 0, exactly12 := 0, exactly13 := 0
    atLeast10 := 0, atLeast11 := 0, atLeast12 := 0, atLeast13 := 0 }

/-- The switch of simulateRow counting exact results. -/
def tallyExact (results : CorrectCountTally) (correctCount : ℕ) : CorrectCountTally :=
  if correctCount = 10 then { results with exactly10 := results.exactly10 + 1 }
  else if correctCount = 11 then { results with exactly11 := results.exactly11 + 1 }
  else if correctCount = 12 then { results with exactly12 := results.exactly12 + 1 }
  else if correctCount = 13 then { results with exactly13 := results.exactly13 + 1 }
  else results

/-- The at-least updates of simulateRow. -/
def tallyAtLeast (results : CorrectCountTally) (correctCount : ℕ) : CorrectCountTally :=
  let r1 := if correctCount ≥ 10 then { results with atLeast10 := results.atLeast10 + 1 }
            else results
  let r2 := if correctCount ≥ 11 then { r1 with atLeast11 := r1.atLeast11 + 1 } else r1
  let r3 := if correctCount ≥ 12 then { r2 with atLeast12 := r2.atLeast12 + 1 } else r2
  if correctCount ≥ 13 then { r3 with atLeast13 := r3.atLeast13 + 1 } else r3

/-- One iteration's bookkeeping in simulateRow: the exact-count switch
followed by the at-least updates. -/
def tallyCorrectCount (results : CorrectCountTally) (correctCount : ℕ) : CorrectCountTally :=
  tallyAtLeast (tallyExact results correctCount) correctCount

/-- odds.ts, the probabilities record of SimulationResult (tallies divided by
the iteration count). -/
structure CorrectCountProbabilities where
  exactly10 : ℚ
  exactly11 : ℚ
  exactly12 : ℚ
  exactly13 : ℚ
  atLeast10 : ℚ
  atLeast11 : ℚ
  atLeast12 : ℚ
  atLeast13 : ℚ
  deriving DecidableEq, Repr

/-- odds.ts, SimulationResult: bucket probabilities, averageCorrect and
expectedPayout of one simulated row. -/
structure SimulationResult where
  correctResults : CorrectCountProbabilities
  averageCorrect : ℚ
  expectedPayout : ℚ
  iterations : ℕ
  deriving DecidableEq, Repr

/-- odds.ts, the payouts table of calculateExpectedPayout, as a step function
of the correct count: 50 / 500 / 5000 / 50000 SEK at 10 / 11 / 12 / 13
correct, 0 below 10. -/
def payoutTier (correctCount : ℕ) : ℚ :=
  if correctCount = 10 then 50
  else if correctCount = 11 then 500
  else if correctCount = 12 then 5000
  else if correctCount = 13 then 50000
  else 0

/-- odds.ts, calculateExpectedPayout: Σ P(exactly k) * payout(k) over the four
tiers. -/
def calculateExpectedPayout (probabilities : CorrectCountProbabilities) : ℚ :=
  probabilities.exactly10 * 50 + probabilities.exactly11 * 500
    + probabilities.exactly12 * 5000 + probabilities.exactly13 * 50000

/-- odds.ts, simulateRow: run the given number of iterations (the per-match
uniform draws of iteration i supplied by the oracle rand i), tally exact and
at-least buckets and the running total of correct counts, then convert tallies
to probabilities and aggregate. -/
def simulateRow (outcomes : List Outcome) («matches» : List MatchWithOdds)
    (iterations : ℕ) (rand : ℕ → ℕ → ℚ) : SimulationResult :=
  let state := (List.range iterations).foldl
    (fun (acc : CorrectCountTally × ℕ) i =>
      let correctCount := simulateMatchday outcomes «matches» (rand i)
      (tallyCorrectCount acc.1 correctCount, acc.2 + correctCount))
    (initialTally, 0)
  let results := state.1
  let probabilities : CorrectCountProbabilities :=
    { exactly10 := (results.exactly10 : ℚ) / iterations
      exactly11 := (results.exactly11 : ℚ) / iterations
      exactly12 := (results.exactly12 : ℚ) / iterations
      exactly13 := (results.exactly13 : ℚ) / iterations
      atLeast10 := (results.atLeast10 : ℚ) / iterations
      atLeast11 := (results.atLeast11 : ℚ) / iterations
      atLeast12 := (results.atLeast12 : ℚ) / iterations
      atLeast13 := (results.atLeast13 : ℚ) / iterations }
  { correctResults := probabilities
    averageCorrect := (state.2 : ℚ) / iterations
    expectedPayout := calculateExpectedPayout probabilities
    iterations := iterations }

/-- The at-least updates leave the exact buckets unchanged. -/
theorem tallyAtLeast_exactly10 (r : CorrectCountTally) (c : ℕ) :
    (tallyAtLeast r c).exactly10 = r.exactly10 := by
  simp only [tallyAtLeast]
  split_ifs <;> rfl

/-- The at-least updates leave the exact buckets unchanged (11). -/
theorem tallyAtLeast_exactly11 (r : CorrectCountTally) (c : ℕ) :
    (tallyAtLeast r c).exactly11 = r.exactly11 := by
  simp only [tallyAtLeast]
  split_ifs <;> rfl

/-- The at-least updates leave the exact buckets unchanged (12). -/
theorem tallyAtLeast_exactly12 (r : CorrectCountTally) (c : ℕ) :
    (tallyAtLeast r c).exactly12 = r.exactly12 := by
  simp only [tallyAtLeast]
  split_ifs <;> rfl

/-- The at-least updates leave the exact buckets unchanged (13). -/
theorem tallyAtLeast_exactly13 (r : CorrectCountTally) (c : ℕ) :
    (tallyAtLeast r c).exactly13 = r.exactly13 := by
  simp only [tallyAtLeast]
  split_ifs <;> rfl

/-- One bookkeeping step increments exactly10 precisely on a 10-correct
iteration. -/
theorem tallyCorrectCount_exactly10 (r : CorrectCountTally) (c : ℕ) :
    (tallyCorrectCount r c).exactly10
      = if c = 10 then r.exactly10 + 1 else r.exactly10 := by
  unfold tallyCorrectCount
  rw [tallyAtLeast_exactly10]
  unfold tallyExact
  split_ifs <;> simp_all

/-- One bookkeeping step increments exactly11 precisely on an 11-correct
iteration. -/
theorem tallyCorrectCount_exactly11 (r : CorrectCountTally) (c : ℕ) :
    (tallyCorrectCount r c).exactly11
      = if c = 11 then r.exactly11 + 1 else r.exactly11 := by
  unfold tallyCorrectCount
  rw [tallyAtLeast_exactly11]
  unfold tallyExact
  split_ifs <;> simp_all

/-- One bookkeeping step increments exactly12 precisely on a 12-correct
iteration. -/
theorem tallyCorrectCount_exactly12 (r : CorrectCountTally) (c : ℕ) :
    (tallyCorrectCount r c).exactly12
      = if c = 12 then r.exactly12 + 1 else r.exactly12 := by
  unfold tallyCorrectCount
  rw [tallyAtLeast_exactly12]
  unfold tallyExact
  split_ifs <;> simp_all

/-- One bookkeeping step increments exactly13 precisely on a 13-correct
iteration. -/
theorem tallyCorrectCount_exactly13 (r : CorrectCountTally) (c : ℕ) :
    (tallyCorrectCount r c).exactly13
      = if c = 13 then r.exactly13 + 1 else r.exactly13 := by
  unfold tallyCorrectCount
  rw [tallyAtLeast_exactly13]
  unfold tallyExact
  split_ifs <;> simp_all

/-- After folding the simulation bookkeeping over any iteration list, each
exact bucket holds its initial value plus the number of iterations whose
correct count hit that bucket. -/
theorem simulate_fold_exact_counts (cc : ℕ → ℕ) :
    ∀ (l : List ℕ) (t : CorrectCountTally) (s : ℕ),
      ((l.foldl (fun (acc : CorrectCountTally × ℕ) i =>
          (tallyCorrectCount acc.1 (cc i), acc.2 + cc i)) (t, s)).1.exactly10
          = t.exactly10 + (l.filter (fun i => cc i = 10)).length) ∧
      ((l.foldl (fun (acc : CorrectCountTally × ℕ) i =>
          (tallyCorrectCount acc.1 (cc i), acc.2 + cc i)) (t, s)).1.exactly11
          = t.exactly11 + (l.filter (fun i => cc i = 11)).length) ∧
      ((l.foldl (fun (acc : CorrectCountTally × ℕ) i =>
          (tallyCorrectCount acc.1 (cc i), acc.2 + cc i)) (t, s)).1.exactly12
          = t.exactly12 + (l.filter (fun i => cc i = 12)).length) ∧
      ((l.foldl (fun (acc : CorrectCountTally × ℕ) i =>
          (tallyCorrectCount acc.1 (cc i), acc.2 + cc i)) (t, s)).1.exactly13
          = t.exactly13 + (l.filter (fun i => cc i = 13)).length) := by
  intro l
  induction l with
  | nil => intro t s; simp
  | cons a l ih =>
      intro t s
      simp only [List.foldl_cons, List.filter_cons]
      obtain ⟨ih10, ih11, ih12, ih13⟩ := ih (tallyCorrectCount t (cc a)) (s + cc a)
      refine ⟨?_, ?_, ?_, ?_⟩
      · rw [ih10, tallyCorrectCount_exactly10]
        by_cases h : cc a = 10 <;> simp [h] <;> omega
      · rw [ih11, tallyCorrectCount_exactly11]
        by_cases h : cc a = 11 <;> simp [h] <;> omega
      · rw [ih12, tallyCorrectCount_exactly12]
        by_cases h : cc a = 12 <;> simp [h] <;> omega
      · rw [ih13, tallyCorrectCount_exactly13]
        by_cases h : cc a = 13 <;> simp [h] <;> omega

/-- C8: the expectedPayout reported by simulateRow equals Σ over
k ∈ {10,11,12,13} of P(exactly k correct) * payout(k), where P(exactly k) is
the fraction of iterations with exactly k correct and the payout tiers are a
step function strictly increasing from 50 at 10 correct to the jackpot-scale
50000 at 13 correct. -/
theorem simulateRow_expectedPayout_spec (outcomes : List Outcome)
    («matches» : List MatchWithOdds) (iterations : ℕ) (rand : ℕ → ℕ → ℚ)
    (hpos : 0 < iterations) :
    (simulateRow outcomes «matches» iterations rand).expectedPayout
      = (((List.range iterations).filter
            (fun i => simulateMatchday outcomes «matches» (rand i) = 10)).length : ℚ)
          / iterations * payoutTier 10
        + (((List.range iterations).filter
            (fun i => simulateMatchday outcomes «matches» (rand i) = 11)).length : ℚ)
          / iterations * payoutTier 11
        + (((List.range iterations).filter
            (fun i => simulateMatchday outcomes «matches» (rand i) = 12)).length : ℚ)
          / iterations * payoutTier 12
        + (((List.range iterations).filter
            (fun i => simulateMatchday outcomes «matches» (rand i) = 13)).length : ℚ)
          / iterations * payoutTier 13 ∧
    payoutTier 10 < payoutTier 11 ∧ payoutTier 11 < payoutTier 12 ∧
    payoutTier 12 < payoutTier 13 ∧ 0 < payoutTier 10 := by
  refine ⟨?_, by norm_num [payoutTier], by norm_num [payoutTier],
    by norm_num [payoutTier], by norm_num [payoutTier]⟩
  obtain ⟨h10, h11, h12, h13⟩ := simulate_fold_exact_counts
    (fun i => simulateMatchday outcomes «matches» (rand i))
    (List.range iterations) initialTally 0
  simp only [simulateRow, calculateExpectedPayout]
  rw [h10, h11, h12, h13]
  simp only [initialTally, Nat.zero_add]
  norm_num [payoutTier]

/-- Witness for C8: one iteration of the all-home row on the example slate;
the reported expectedPayout equals the bucket-probability formula and the
payout tiers increase strictly. -/
theorem simulateRow_expectedPayout_spec_witness :
    0 < 1 ∧
    ((simulateRow (List.replicate 13 Outcome.one) exampleSlate 1
        (fun _ _ => 0)).expectedPayout
      = (((List.range 1).filter
            (fun i => simulateMatchday (List.replicate 13 Outcome.one) exampleSlate
              ((fun _ _ => (0:ℚ)) i) = 10)).length : ℚ)
          / 1 * payoutTier 10
        + (((List.range 1).filter
            (fun i => simulateMatchday (List.replicate 13 Outcome.one) exampleSlate
              ((fun _ _ => (0:ℚ)) i) = 11)).length : ℚ)
          / 1 * payoutTier 11
        + (((List.range 1).filter
            (fun i => simulateMatchday (List.replicate 13 Outcome.one) exampleSlate
              ((fun _ _ => (0:ℚ)) i) = 12)).length : ℚ)
          / 1 * payoutTier 12
        + (((List.range 1).filter
            (fun i => simulateMatchday (List.replicate 13 Outcome.one) exampleSlate
              ((fun _ _ => (0:ℚ)) i) = 13)).length : ℚ)
          / 1 * payoutTier 13 ∧
      payoutTier 10 < payoutTier 11 ∧ payoutTier 11 < payoutTier 12 ∧
      payoutTier 12 < payoutTier 13 ∧ 0 < payoutTier 10) :=
  ⟨by decide,
   simulateRow_expectedPayout_spec (List.replicate 13 Outcome.one) exampleSlate 1
     (fun _ _ => 0) (by decide)⟩
